import Mathlib

/-
Verification of the capture-point walking controller sources.

The development shallowly embeds the parts of the code base that the
checked properties talk about:

* `QPSolver.cpp` — the 3-variable step-adaptation QP wrapper
  (`setHessianMatrix`, `evaluateConstraintsMatrix`,
  `setBoundsVectorOfConstraints`);
* `StepAdaptator` — the timing encoding `sigma = exp(omega * T)` and its
  decoding `getDesiredImpactTime`;
* `WalkingModule` — the finite-state machine of `updateModule`, the
  reference-signal buffers of `advanceReferenceSignals`, the merge-point
  scheduling of `setPlannerInput`, and `saturateFz`.

Real-valued quantities of the C++ code (doubles) are modelled as exact
reals; container state is modelled with lists; each C++ member function
becomes a pure state transformer returning its `bool` result alongside
the new state.
-/

/-! ## WalkingModule finite-state machine and the `updateModule` tick -/

/-- The states of `WalkingFSM` in `WalkingModule.hpp`. -/
inductive WalkingFSM where
  | Configured
  | Preparing
  | Prepared
  | Walking
  | Paused
  | Stopped
deriving DecidableEq

/-- Success/failure outcomes of the fallible calls performed by one
`WalkingModule::updateModule` tick, in the order the code performs them.
Each field is the boolean result the corresponding collaborator call
would return on this tick. -/
structure TickEnv where
  /-- `m_robotControlHelper->checkMotionDone` (Preparing branch). -/
  checkMotionDoneOk : Bool
  /-- the `motionDone` out-parameter (Preparing branch). -/
  motionDone : Bool
  /-- `switchToControlMode(VOCAB_CM_POSITION_DIRECT)` (Preparing branch). -/
  switchControlModeOk : Bool
  /-- the `setPlannerInput` calls and the ask/update-trajectory block at
  the top of the Walking branch. -/
  plannerAndMergeOk : Bool
  /-- `getPIDHandler().updatePhases` when gain scheduling is active. -/
  pidOk : Bool
  /-- `m_robotControlHelper->getFeedbacks(100)`. -/
  feedbackOk : Bool
  /-- `updateFKSolver()`. -/
  fkOk : Bool
  /-- `evaluateCoM`. -/
  comOk : Bool
  /-- `evaluateDCM`. -/
  dcmOk : Bool
  /-- `evaluateZMP`. -/
  zmpOk : Bool
  /-- the 3D-LIPM propagation and desired-CoM queries. -/
  lipmOk : Bool
  /-- planner queries (nominal CoM height, duration ratios, footprints). -/
  plannerQueriesOk : Bool
  /-- the step-adaptation QP block, when triggered. -/
  stepAdaptationOk : Bool
  /-- the DCM controller (MPC or reactive). -/
  dcmControllerOk : Bool
  /-- the ZMP-CoM controller. -/
  zmpControllerOk : Bool
  /-- inverse kinematics (QP-IK or iKin). -/
  ikOk : Bool
  /-- `setDirectPositionReferences(m_qDesired)` — the joint command. -/
  setReferencesOk : Bool
deriving DecidableEq

/-- Result of one `updateModule` tick: the boolean returned to the YARP
runtime, the `m_robotState` value after the tick, and whether the tick
reached the `setDirectPositionReferences` joint-command call. -/
structure TickResult where
  ok : Bool
  fsm : WalkingFSM
  commandIssued : Bool
deriving DecidableEq

/-- Shallow embedding of `WalkingModule::updateModule` at the granularity
of its fallible calls.  The `Preparing` branch reproduces the
fail-recovery writes of `m_robotState`; the `Walking` branch reproduces
the early-return-on-failure ladder of the code, which never writes
`m_robotState`.  `commandIssued` records whether control flow reached the
`setDirectPositionReferences` call of that branch. -/
def updateModule (fsm : WalkingFSM) (env : TickEnv) : TickResult :=
  match fsm with
  | .Preparing =>
    if !env.checkMotionDoneOk then
      -- `reset(); m_robotState = WalkingFSM::Stopped; return true;`
      ⟨true, .Stopped, false⟩
    else if env.motionDone then
      if !env.switchControlModeOk then ⟨true, .Stopped, false⟩
      else if !env.setReferencesOk then ⟨true, .Stopped, true⟩
      else ⟨true, .Prepared, true⟩
    else ⟨true, .Preparing, false⟩
  | .Walking =>
    if !env.plannerAndMergeOk then ⟨false, .Walking, false⟩
    else if !env.pidOk then ⟨false, .Walking, false⟩
    else if !env.feedbackOk then ⟨false, .Walking, false⟩
    else if !env.fkOk then ⟨false, .Walking, false⟩
    else if !env.comOk then ⟨false, .Walking, false⟩
    else if !env.dcmOk then ⟨false, .Walking, false⟩
    else if !env.zmpOk then ⟨false, .Walking, false⟩
    else if !env.lipmOk then ⟨false, .Walking, false⟩
    else if !env.plannerQueriesOk then ⟨false, .Walking, false⟩
    else if !env.stepAdaptationOk then ⟨false, .Walking, false⟩
    else if !env.dcmControllerOk then ⟨false, .Walking, false⟩
    else if !env.zmpControllerOk then ⟨false, .Walking, false⟩
    else if !env.ikOk then ⟨false, .Walking, false⟩
    else if !env.setReferencesOk then ⟨false, .Walking, true⟩
    else ⟨true, .Walking, true⟩
  | other => ⟨true, other, false⟩

/-! ## Step-adaptation trigger guards in the Walking branch -/

/-- The right-swing trigger of the step-adaptation block:
`2 == static_cast<int>(jRightFootPhases[indexmilad]) && jRightstepList.size() > 1`. -/
def rightSwingAdaptationTriggered (rightFootPhase : Int) (nRightSteps : Nat) : Bool :=
  (rightFootPhase == 2) && (decide (1 < nRightSteps))

/-- The left-swing (mirrored) trigger of the step-adaptation block:
`false && jLeftstepList.size() > 1`. -/
def leftSwingAdaptationTriggered (nLeftSteps : Nat) : Bool :=
  false && (decide (1 < nLeftSteps))

/-! ## Merge-point scheduling: `WalkingModule::setPlannerInput` -/

/-- The slice of `WalkingModule` state read and written by
`setPlannerInput`: the merge-point deque, the front contact flags of the
two contact deques, the pending-request flag, the lookahead merge
counter and the stored goal position. -/
structure PlannerState where
  mergePoints : List Nat
  leftInContactFront : Bool
  rightInContactFront : Bool
  newTrajectoryRequired : Bool
  newTrajectoryMergeCounter : Nat
  desiredPosition : Real × Real

/-- Shallow embedding of `WalkingModule::setPlannerInput(x, y)`. -/
def setPlannerInput (s : PlannerState) (x y : Real) : Bool × PlannerState :=
  match s.mergePoints with
  | [] =>
    if !(s.leftInContactFront && s.rightInContactFront) then
      (false, s)
    else if s.newTrajectoryRequired then
      (true, s)
    else
      (true, { s with newTrajectoryMergeCounter := 20,
                      desiredPosition := (x, y),
                      newTrajectoryRequired := true })
  | front :: rest =>
    if 20 < front then
      -- no pending-request check on this path
      (true, { s with newTrajectoryMergeCounter := front,
                      desiredPosition := (x, y),
                      newTrajectoryRequired := true })
    else
      match rest with
      | second :: _ =>
        if s.newTrajectoryRequired then
          (true, s)
        else
          (true, { s with newTrajectoryMergeCounter := second,
                          desiredPosition := (x, y),
                          newTrajectoryRequired := true })
      | [] =>
        if s.newTrajectoryRequired then
          (true, s)
        else
          (true, { s with newTrajectoryMergeCounter := 20,
                          desiredPosition := (x, y),
                          newTrajectoryRequired := true })

/-! ## Reference buffers: `WalkingModule::advanceReferenceSignals` -/

/-- The time-indexed reference deques of `WalkingModule`, parametrised by
the element types (foot transforms `Tf`, foot twists `Tw`, planar vectors
`V2`); contact and fixed-frame flags are booleans and CoM heights and
height rates are reals, as in the code. -/
structure RefState (Tf Tw V2 : Type) where
  leftTrajectory : List Tf
  rightTrajectory : List Tf
  leftTwistTrajectory : List Tw
  rightTwistTrajectory : List Tw
  leftInContact : List Bool
  rightInContact : List Bool
  isLeftFixedFrame : List Bool
  DCMPositionDesired : List V2
  DCMVelocityDesired : List V2
  comHeightTrajectory : List Real
  comHeightVelocity : List Real
  mergePoints : List Nat

/-- One `pop_front(); push_back(back());` round on a deque: the element
pushed is the back of the deque after the pop.  (On a deque of length 1
the C++ `back()` reads an empty deque; the model pushes an arbitrary
inhabitant there, which is what any non-trapping execution does to the
length.) -/
def advanceQueue {γ : Type} [Inhabited γ] (q : List γ) : List γ :=
  q.tail ++ [q.tail.getLastD default]

/-- The `mergePoint--` of the code acts on a `size_t`; decrementing is
adding `2^64 - 1` modulo `2^64`. -/
def sizetDecrement (n : Nat) : Nat :=
  (n + (2 ^ 64 - 1)) % 2 ^ 64

/-- The merge-point block of `advanceReferenceSignals`: decrement every
entry, then drop the front entry if it is now `0`. -/
def advanceMergePoints (q : List Nat) : List Nat :=
  match q.map sizetDecrement with
  | [] => []
  | h :: t => if h = 0 then t else h :: t

/-- Emptiness guard at the top of `advanceReferenceSignals` (it checks
seven of the eleven deques). -/
def advanceGuardFails {Tf Tw V2 : Type} (s : RefState Tf Tw V2) : Bool :=
  s.leftTrajectory.isEmpty || s.rightTrajectory.isEmpty
    || s.leftInContact.isEmpty || s.rightInContact.isEmpty
    || s.DCMPositionDesired.isEmpty || s.DCMVelocityDesired.isEmpty
    || s.comHeightTrajectory.isEmpty

/-- Shallow embedding of `WalkingModule::advanceReferenceSignals`. -/
def advanceReferenceSignals {Tf Tw V2 : Type} [Inhabited Tf] [Inhabited Tw]
    [Inhabited V2] (s : RefState Tf Tw V2) : Bool × RefState Tf Tw V2 :=
  if advanceGuardFails s then
    (false, s)
  else
    (true,
      { leftTrajectory := advanceQueue s.leftTrajectory
        rightTrajectory := advanceQueue s.rightTrajectory
        leftTwistTrajectory := advanceQueue s.leftTwistTrajectory
        rightTwistTrajectory := advanceQueue s.rightTwistTrajectory
        leftInContact := advanceQueue s.leftInContact
        rightInContact := advanceQueue s.rightInContact
        isLeftFixedFrame := advanceQueue s.isLeftFixedFrame
        DCMPositionDesired := advanceQueue s.DCMPositionDesired
        DCMVelocityDesired := advanceQueue s.DCMVelocityDesired
        comHeightTrajectory := advanceQueue s.comHeightTrajectory
        comHeightVelocity := advanceQueue s.comHeightVelocity
        mergePoints := advanceMergePoints s.mergePoints })

/-- N consecutive `advanceReferenceSignals` calls (keeping the state of a
call that failed its emptiness guard, as the code leaves the deques
untouched in that case). -/
def advanceNTimes {Tf Tw V2 : Type} [Inhabited Tf] [Inhabited Tw]
    [Inhabited V2] (n : Nat) (s : RefState Tf Tw V2) : RefState Tf Tw V2 :=
  match n with
  | 0 => s
  | Nat.succ m => advanceNTimes m (advanceReferenceSignals s).2

/-- All eleven reference deques are non-empty. -/
def allQueuesNonempty {Tf Tw V2 : Type} (s : RefState Tf Tw V2) : Prop :=
  s.leftTrajectory ≠ [] ∧ s.rightTrajectory ≠ []
    ∧ s.leftTwistTrajectory ≠ [] ∧ s.rightTwistTrajectory ≠ []
    ∧ s.leftInContact ≠ [] ∧ s.rightInContact ≠ []
    ∧ s.isLeftFixedFrame ≠ []
    ∧ s.DCMPositionDesired ≠ [] ∧ s.DCMVelocityDesired ≠ []
    ∧ s.comHeightTrajectory ≠ [] ∧ s.comHeightVelocity ≠ []

/-- The eleven trajectory deques of `t` have the same lengths as those of
`s`. -/
def sameQueueLengths {Tf Tw V2 : Type} (s t : RefState Tf Tw V2) : Prop :=
  t.leftTrajectory.length = s.leftTrajectory.length
    ∧ t.rightTrajectory.length = s.rightTrajectory.length
    ∧ t.leftTwistTrajectory.length = s.leftTwistTrajectory.length
    ∧ t.rightTwistTrajectory.length = s.rightTwistTrajectory.length
    ∧ t.leftInContact.length = s.leftInContact.length
    ∧ t.rightInContact.length = s.rightInContact.length
    ∧ t.isLeftFixedFrame.length = s.isLeftFixedFrame.length
    ∧ t.DCMPositionDesired.length = s.DCMPositionDesired.length
    ∧ t.DCMVelocityDesired.length = s.DCMVelocityDesired.length
    ∧ t.comHeightTrajectory.length = s.comHeightTrajectory.length
    ∧ t.comHeightVelocity.length = s.comHeightVelocity.length

/-! ## The step-adaptation QP of `QPSolver.cpp` -/

noncomputable section

/-- `OsqpEigen::INFTY` (the OSQP infinity constant, `1e30`). -/
def OSQP_INFTY : Real := 1e30

/-- The 3x3 Hessian built by `QPSolver::setHessianMatrix` from the gain
vector `alphaVector`: entries `(0,0) = a0 + a3`, `(0,2) = (2,0) = a0`,
`(1,1) = a2`, `(2,2) = a0 + a1`, all other entries zero. -/
def hessianMatrix (alphaVector : Fin 4 → Real) : Fin 3 → Fin 3 → Real :=
  ![![alphaVector 0 + alphaVector 3, 0, alphaVector 0],
    ![0, alphaVector 2, 0],
    ![alphaVector 0, 0, alphaVector 0 + alphaVector 1]]

/-- The quadratic form `x^T M x` of a 3x3 matrix. -/
def quadForm (M : Fin 3 → Fin 3 → Real) (x : Fin 3 → Real) : Real :=
  ∑ i, ∑ j, x i * M i j * x j

/-- The 5x3 constraint matrix built by
`QPSolver::evaluateConstraintsMatrix` from
`currentValuesVector = (currentZMP, currentDCM, currentOffset)`.
Row 0 is the dynamics equality row; rows 1-4 are the inequality rows on
`z` (column 0) and `sigma` (column 1). -/
def evaluateConstraintsMatrix (currentValuesVector : Fin 3 → Real) :
    Fin 5 → Fin 3 → Real :=
  ![![1, (currentValuesVector 0 + currentValuesVector 2)
        - currentValuesVector 1 - currentValuesVector 2 / 2, 1],
    ![1, 0, 0],
    ![-1, 0, 0],
    ![0, 1, 0],
    ![0, -1, 0]]

/-- The upper-bound vector built by `QPSolver::setBoundsVectorOfConstraints`
from `nominalValuesVector = (nominalNextPosition, nominalSigma,
nominalDCMOffset, nominalNextDCM, omega)`,
`currentValuesVector = (currentZMP, currentDCM, currentOffset)` and
`tolerenceOfBounds`, with
`StepDuration = log(nominalSigma) / omega`. -/
def upperBoundOfConstraints (nominalValuesVector : Fin 5 → Real)
    (currentValuesVector : Fin 3 → Real) (tolerenceOfBounds : Fin 4 → Real) :
    Fin 5 → Real :=
  let StepDuration := Real.log (nominalValuesVector 1) / nominalValuesVector 4
  ![currentValuesVector 2 / 2 + currentValuesVector 0,
    nominalValuesVector 0 + tolerenceOfBounds 0,
    nominalValuesVector 0 - tolerenceOfBounds 1,
    Real.exp ((StepDuration + tolerenceOfBounds 2) * nominalValuesVector 4),
    Real.exp ((StepDuration - tolerenceOfBounds 2) * nominalValuesVector 4)]

/-- The lower-bound vector built by `QPSolver::setBoundsVectorOfConstraints`:
the equality row is pinned, the four inequality rows are unbounded below. -/
def lowerBoundOfConstraints (nominalValuesVector : Fin 5 → Real)
    (currentValuesVector : Fin 3 → Real) (tolerenceOfBounds : Fin 4 → Real) :
    Fin 5 → Real :=
  ![currentValuesVector 2 / 2 + currentValuesVector 0,
    -OSQP_INFTY, -OSQP_INFTY, -OSQP_INFTY, -OSQP_INFTY]

/-- Value of constraint row `i` at the decision vector
`x = (z, sigma, delta)`. -/
def constraintRowValue (currentValuesVector : Fin 3 → Real)
    (x : Fin 3 → Real) (i : Fin 5) : Real :=
  ∑ j, evaluateConstraintsMatrix currentValuesVector i j * x j

/-- `x` satisfies every row constraint `lower i ≤ (A x) i ≤ upper i` of
the QP assembled by `setConstraintsMatrix` and
`setBoundsVectorOfConstraints`. -/
def inFeasibleSet (nominalValuesVector : Fin 5 → Real)
    (currentValuesVector : Fin 3 → Real) (tolerenceOfBounds : Fin 4 → Real)
    (x : Fin 3 → Real) : Prop :=
  ∀ i : Fin 5,
    lowerBoundOfConstraints nominalValuesVector currentValuesVector
        tolerenceOfBounds i
      ≤ constraintRowValue currentValuesVector x i
    ∧ constraintRowValue currentValuesVector x i
      ≤ upperBoundOfConstraints nominalValuesVector currentValuesVector
          tolerenceOfBounds i

/-- The state of a `QPSolver` relevant to `setHessianMatrix`: whether the
underlying OSQP solver has been initialized, the Hessian stored inside
the OSQP data (if any), and the `m_hessian` member copy. -/
structure QPSolverState where
  initialized : Bool
  solverHessian : Option (Fin 3 → Fin 3 → Real)
  mHessian : Option (Fin 3 → Fin 3 → Real)

/-- Shallow embedding of `QPSolver::setHessianMatrix(alphaVector)`.  The
member copy `m_hessian` is overwritten unconditionally; if the solver is
already initialized the function only warns (the `return false` in that
branch is commented out in the source) and leaves the solver data
untouched; otherwise the Hessian is installed into the solver data.
(`data()->setHessianMatrix` only fails on a size mismatch, impossible for
the fixed 3x3 problem, so it is modelled as succeeding.) -/
def setHessianMatrix (s : QPSolverState) (alphaVector : Fin 4 → Real) :
    Bool × QPSolverState :=
  let H := hessianMatrix alphaVector
  if s.initialized then
    (true, { s with mHessian := some H })
  else
    (true, { s with mHessian := some H, solverHessian := some H })

/-! ## StepAdaptator timing encode/decode -/

/-- The timing-related members written by `StepAdaptator::setTimings`. -/
structure StepAdaptatorTimings where
  nextDoubleSupportDuration : Real
  currentTime : Real
  stepTiming : Real
  remainingSingleSupportDuration : Real
  sigmaNominal : Real
  omega : Real

/-- Shallow embedding of `StepAdaptator::setTimings(omega, currentTime,
nextImpactTime, nextDoubleSupportDuration)`. -/
def setTimings (omega currentTime nextImpactTime
    nextDoubleSupportDuration : Real) : StepAdaptatorTimings :=
  { nextDoubleSupportDuration := nextDoubleSupportDuration
    currentTime := currentTime
    stepTiming := nextImpactTime + nextDoubleSupportDuration / 2 - currentTime
    remainingSingleSupportDuration := nextImpactTime - currentTime
    sigmaNominal :=
      Real.exp (omega * (nextImpactTime + nextDoubleSupportDuration / 2
        - currentTime))
    omega := omega }

/-- Shallow embedding of `StepAdaptator::getDesiredImpactTime`, with the
solver solution component `getSolution()(2)` passed as `sigmaSolution`. -/
def getDesiredImpactTime (s : StepAdaptatorTimings)
    (sigmaSolution : Real) : Real :=
  s.currentTime + Real.log sigmaSolution / s.omega
    - s.nextDoubleSupportDuration / 2

/-! ## WalkingModule saturation of vertical contact forces -/

/-- Shallow embedding of `WalkingModule::saturateFz(Fz, thresholdFz)`:
returns the boolean result together with the (possibly saturated) value
of the by-reference argument `Fz`. -/
def saturateFz (Fz thresholdFz : Real) : Bool × Real :=
  if thresholdFz < 0 then
    (false, Fz)
  else if Fz ≥ thresholdFz then
    (true, Fz)
  else
    (true, 0)

/-- A `QPSolverState` whose underlying solver has been initialized with
the Hessian of the unit gain vector. -/
def qpStateInitialized : QPSolverState :=
  { initialized := true
    solverHessian := some (hessianMatrix ![1, 1, 1, 1])
    mHessian := some (hessianMatrix ![1, 1, 1, 1]) }

/-- Example nominal values: `nominalNextPosition = 1`,
`nominalSigma = 1`, `nominalDCMOffset = 0`, `nominalNextDCM = 0`,
`omega = 1` (so the nominal step duration `log(1)/1` is `0`). -/
def nominalValuesEx : Fin 5 → Real := ![1, 1, 0, 0, 1]

/-- Example current values: measured ZMP, measured DCM and offset all
zero (the offset entry `currentValues(2)` is set to `0` by
`WalkingModule::updateModule`). -/
def currentValuesEx : Fin 3 → Real := ![0, 0, 0]

/-- Example tolerances: `zmpTolerance = 1/10` on both sides,
`durationTolerance = 0`. -/
def tolerenceEx : Fin 4 → Real := ![1 / 10, 1 / 10, 0, 0]

/-- Example decision vector `(z, sigma, delta) = (0, 0, 0)`. -/
def solutionEx : Fin 3 → Real := ![0, 0, 0]

end

/-- The example decision vector satisfies every row constraint of the
QP built from the example nominal/current values and tolerances. -/
theorem solutionEx_feasible :
    inFeasibleSet nominalValuesEx currentValuesEx tolerenceEx solutionEx := by
  intro i
  fin_cases i <;>
    constructor <;>
      norm_num [inFeasibleSet, lowerBoundOfConstraints, upperBoundOfConstraints,
        constraintRowValue, evaluateConstraintsMatrix, OSQP_INFTY,
        nominalValuesEx, currentValuesEx, tolerenceEx, solutionEx,
        Fin.sum_univ_three, Real.log_one, Real.exp_zero]

/-! ## Helper lemmas on the reference buffers -/

theorem isEmpty_false_of_ne_nil {γ : Type} {l : List γ} (h : l ≠ []) :
    l.isEmpty = false := by
  cases l with
  | nil => exact absurd rfl h
  | cons a t => rfl

theorem advanceQueue_length {γ : Type} [Inhabited γ] (q : List γ)
    (h : q ≠ []) : (advanceQueue q).length = q.length := by
  cases q with
  | nil => exact absurd rfl h
  | cons a t => simp [advanceQueue]

theorem advanceQueue_ne_nil {γ : Type} [Inhabited γ] (q : List γ) :
    advanceQueue q ≠ [] := by
  simp [advanceQueue]

theorem sizetDecrement_eq {n : Nat} (h1 : 1 ≤ n) (h2 : n < 2 ^ 64) :
    sizetDecrement n = n - 1 := by
  have hpow : (2 : Nat) ^ 64 = 18446744073709551616 := by norm_num
  unfold sizetDecrement
  rw [hpow] at h2 ⊢
  omega

/-- One merge-point round: with all entries in `[1, 2^64)` and the queue
strictly ascending, decrement-then-drop-zero-front equals keeping the
entries above `1` and subtracting `1` from each. -/
theorem advanceMergePoints_eq (q : List Nat)
    (hb : ∀ m ∈ q, 1 ≤ m ∧ m < 2 ^ 64) (hs : q.Pairwise (· < ·)) :
    advanceMergePoints q
      = (q.filter (fun m => decide (1 < m))).map (fun m => m - 1) := by
  have hmap : q.map sizetDecrement = q.map (fun m => m - 1) :=
    List.map_congr_left fun m hm => sizetDecrement_eq (hb m hm).1 (hb m hm).2
  unfold advanceMergePoints
  rw [hmap]
  cases q with
  | nil => rfl
  | cons a t =>
    have ha : 1 ≤ a := (hb a (List.mem_cons_self a t)).1
    have htail : ∀ m ∈ t, (fun m => decide (1 < m)) m = true := by
      intro m hm
      have : a < m := (List.pairwise_cons.mp hs).1 m hm
      simp
      omega
    have htfilter : t.filter (fun m => decide (1 < m)) = t :=
      List.filter_eq_self.mpr htail
    by_cases h1 : 1 < a
    · have : ¬ (a - 1 = 0) := by omega
      simp only [List.map_cons, this, if_false]
      rw [List.filter_cons_of_pos (by simpa using h1), List.map_cons, htfilter]
    · have haeq : a = 1 := by omega
      subst haeq
      simp only [List.map_cons]
      rw [List.filter_cons_of_neg (by simp), htfilter]
      simp

/-- Iterating the merge-point round `N` times keeps exactly the entries
above `N`, each reduced by `N`. -/
theorem advanceMergePoints_iterate (N : Nat) :
    ∀ q : List Nat, (∀ m ∈ q, 1 ≤ m ∧ m < 2 ^ 64) → q.Pairwise (· < ·) →
      advanceMergePoints^[N] q
        = (q.filter (fun m => decide (N < m))).map (fun m => m - N) := by
  induction N with
  | zero =>
    intro q hb hs
    have hfilter : q.filter (fun m => decide (0 < m)) = q :=
      List.filter_eq_self.mpr fun m hm => by
        have := (hb m hm).1
        simp
        omega
    simp [hfilter]
  | succ N ih =>
    intro q hb hs
    rw [Function.iterate_succ_apply, advanceMergePoints_eq q hb hs]
    set q1 := (q.filter (fun m => decide (1 < m))).map (fun m => m - 1) with hq1
    have hb1 : ∀ m ∈ q1, 1 ≤ m ∧ m < 2 ^ 64 := by
      intro m hm
      rw [hq1] at hm
      obtain ⟨m0, hm0, rfl⟩ := List.mem_map.mp hm
      have hmem := List.mem_of_mem_filter hm0
      have hlt : 1 < m0 := by simpa using List.of_mem_filter hm0
      have := hb m0 hmem
      omega
    have hs1 : q1.Pairwise (· < ·) := by
      rw [hq1]
      refine List.pairwise_map.mpr ?_
      refine List.Pairwise.imp_of_mem ?_ (hs.filter _)
      intro a b ha hb2 hab
      have ha1 : 1 < a := by simpa using List.of_mem_filter ha
      omega
    rw [ih q1 hb1 hs1, hq1]
    rw [List.filter_map, List.map_map]
    have hfilters : (q.filter (fun m => decide (1 < m))).filter
          ((fun m => decide (N < m)) ∘ (fun m => m - 1))
        = q.filter (fun m => decide (N + 1 < m)) := by
      rw [List.filter_filter]
      refine List.filter_congr ?_
      intro m hm
      by_cases hm1 : N + 1 < m
      · have : N < m - 1 := by omega
        have h1m : 1 < m := by omega
        simp [hm1, h1m, this]
      · by_cases h1m : 1 < m
        · have : ¬ N < m - 1 := by omega
          simp [hm1, h1m, this]
        · simp [hm1, h1m]
    rw [hfilters]
    refine List.map_congr_left ?_
    intro m hm
    simp only [Function.comp]
    omega

/-- Effect of one guarded `advanceReferenceSignals` call on a state with
all deques non-empty: it succeeds, preserves every deque length, keeps
all deques non-empty and applies the merge-point round. -/
theorem advanceReferenceSignals_of_nonempty {Tf Tw V2 : Type} [Inhabited Tf]
    [Inhabited Tw] [Inhabited V2] (s : RefState Tf Tw V2)
    (h : allQueuesNonempty s) :
    (advanceReferenceSignals s).1 = true
    ∧ sameQueueLengths s (advanceReferenceSignals s).2
    ∧ (advanceReferenceSignals s).2.mergePoints
        = advanceMergePoints s.mergePoints
    ∧ allQueuesNonempty (advanceReferenceSignals s).2 := by
  obtain ⟨h1, h2, h3, h4, h5, h6, h7, h8, h9, h10, h11⟩ := h
  have hguard : advanceGuardFails s = false := by
    simp [advanceGuardFails, isEmpty_false_of_ne_nil, h1, h2, h5, h6, h8, h9,
      h10]
  refine ⟨?_, ?_, ?_, ?_⟩
  · simp [advanceReferenceSignals, hguard]
  · simp only [advanceReferenceSignals, hguard, if_false, Bool.false_eq_true]
    exact ⟨advanceQueue_length _ h1, advanceQueue_length _ h2,
      advanceQueue_length _ h3, advanceQueue_length _ h4,
      advanceQueue_length _ h5, advanceQueue_length _ h6,
      advanceQueue_length _ h7, advanceQueue_length _ h8,
      advanceQueue_length _ h9, advanceQueue_length _ h10,
      advanceQueue_length _ h11⟩
  · simp [advanceReferenceSignals, hguard]
  · simp only [advanceReferenceSignals, hguard, if_false, Bool.false_eq_true]
    exact ⟨advanceQueue_ne_nil _, advanceQueue_ne_nil _, advanceQueue_ne_nil _,
      advanceQueue_ne_nil _, advanceQueue_ne_nil _, advanceQueue_ne_nil _,
      advanceQueue_ne_nil _, advanceQueue_ne_nil _, advanceQueue_ne_nil _,
      advanceQueue_ne_nil _, advanceQueue_ne_nil _⟩

/-- Composition of `sameQueueLengths`. -/
theorem sameQueueLengths_trans {Tf Tw V2 : Type} {s t u : RefState Tf Tw V2}
    (h1 : sameQueueLengths s t) (h2 : sameQueueLengths t u) :
    sameQueueLengths s u := by
  obtain ⟨a1, a2, a3, a4, a5, a6, a7, a8, a9, a10, a11⟩ := h1
  obtain ⟨b1, b2, b3, b4, b5, b6, b7, b8, b9, b10, b11⟩ := h2
  exact ⟨b1.trans a1, b2.trans a2, b3.trans a3, b4.trans a4, b5.trans a5,
    b6.trans a6, b7.trans a7, b8.trans a8, b9.trans a9, b10.trans a10,
    b11.trans a11⟩

/-- N-fold advance on a state with all deques non-empty: lengths are
preserved, deques stay non-empty, and the merge-point queue underwent the
N-fold merge round. -/
theorem advanceNTimes_of_nonempty {Tf Tw V2 : Type} [Inhabited Tf]
    [Inhabited Tw] [Inhabited V2] (N : Nat) :
    ∀ s : RefState Tf Tw V2, allQueuesNonempty s →
      sameQueueLengths s (advanceNTimes N s)
      ∧ allQueuesNonempty (advanceNTimes N s)
      ∧ (advanceNTimes N s).mergePoints
          = advanceMergePoints^[N] s.mergePoints := by
  induction N with
  | zero =>
    intro s h
    exact ⟨⟨rfl, rfl, rfl, rfl, rfl, rfl, rfl, rfl, rfl, rfl, rfl⟩, h, rfl⟩
  | succ N ih =>
    intro s h
    obtain ⟨hok, hlen, hmerge, hne⟩ := advanceReferenceSignals_of_nonempty s h
    obtain ⟨ihlen, ihne, ihmerge⟩ := ih (advanceReferenceSignals s).2 hne
    refine ⟨sameQueueLengths_trans hlen ihlen, ihne, ?_⟩
    show (advanceNTimes N (advanceReferenceSignals s).2).mergePoints = _
    rw [ihmerge, hmerge, Function.iterate_succ_apply]

/-! ## Claim theorems -/

/-- C3: for every state with non-empty reference buffers, a strictly
ascending merge-point queue and entries in `[1, 2^64)`, one
`advanceReferenceSignals` call succeeds, preserves the length of every
trajectory deque, and decrements every merge-point entry by exactly one,
dropping the front exactly when it reaches zero (equivalently: it keeps
the entries above 1, each reduced by 1); after `N` consecutive calls
every surviving merge-point entry equals its original value minus `N`
(exactly the original entries above `N` survive) and the queue is still
strictly ascending. -/
theorem advanceReferenceSignalsInvariants {Tf Tw V2 : Type} [Inhabited Tf]
    [Inhabited Tw] [Inhabited V2] (s : RefState Tf Tw V2)
    (hne : allQueuesNonempty s)
    (hb : ∀ m ∈ s.mergePoints, 1 ≤ m ∧ m < 2 ^ 64)
    (hs : s.mergePoints.Pairwise (· < ·)) (N : Nat) :
    (advanceReferenceSignals s).1 = true
    ∧ sameQueueLengths s (advanceReferenceSignals s).2
    ∧ (advanceReferenceSignals s).2.mergePoints
        = (s.mergePoints.filter (fun m => decide (1 < m))).map
            (fun m => m - 1)
    ∧ (advanceNTimes N s).mergePoints
        = (s.mergePoints.filter (fun m => decide (N < m))).map
            (fun m => m - N)
    ∧ (advanceNTimes N s).mergePoints.Pairwise (· < ·) := by
  obtain ⟨hok, hlen, hmerge, _⟩ := advanceReferenceSignals_of_nonempty s hne
  obtain ⟨_, _, hmergeN⟩ := advanceNTimes_of_nonempty N s hne
  have hiter := advanceMergePoints_iterate N s.mergePoints hb hs
  refine ⟨hok, hlen, ?_, ?_, ?_⟩
  · rw [hmerge, advanceMergePoints_eq s.mergePoints hb hs]
  · rw [hmergeN, hiter]
  · rw [hmergeN, hiter]
    refine List.pairwise_map.mpr ?_
    refine List.Pairwise.imp_of_mem ?_ (hs.filter _)
    intro a b ha hb2 hab
    have haN : N < a := by simpa using List.of_mem_filter ha
    omega

/-- A concrete reference-buffer state: all eleven deques hold one sample
and the merge-point queue is `[1, 3]`. -/
def refStateEx : RefState Unit Unit Unit :=
  { leftTrajectory := [()]
    rightTrajectory := [()]
    leftTwistTrajectory := [()]
    rightTwistTrajectory := [()]
    leftInContact := [true]
    rightInContact := [true]
    isLeftFixedFrame := [true]
    DCMPositionDesired := [()]
    DCMVelocityDesired := [()]
    comHeightTrajectory := [0]
    comHeightVelocity := [0]
    mergePoints := [1, 3] }

/-- Witness for `advanceReferenceSignalsInvariants` on the concrete
state `refStateEx` with `N = 2`. -/
theorem advanceReferenceSignalsInvariantsWitness :
    allQueuesNonempty refStateEx
    ∧ (∀ m ∈ refStateEx.mergePoints, 1 ≤ m ∧ m < 2 ^ 64)
    ∧ refStateEx.mergePoints.Pairwise (· < ·)
    ∧ ((advanceReferenceSignals refStateEx).1 = true
        ∧ sameQueueLengths refStateEx (advanceReferenceSignals refStateEx).2
        ∧ (advanceReferenceSignals refStateEx).2.mergePoints
            = (refStateEx.mergePoints.filter (fun m => decide (1 < m))).map
                (fun m => m - 1)
        ∧ (advanceNTimes 2 refStateEx).mergePoints
            = (refStateEx.mergePoints.filter (fun m => decide (2 < m))).map
                (fun m => m - 2)
        ∧ (advanceNTimes 2 refStateEx).mergePoints.Pairwise (· < ·)) := by
  have hne : allQueuesNonempty refStateEx := by
    simp [allQueuesNonempty, refStateEx]
  have hb : ∀ m ∈ refStateEx.mergePoints, 1 ≤ m ∧ m < 2 ^ 64 := by decide
  have hs : refStateEx.mergePoints.Pairwise (· < ·) := by decide
  exact ⟨hne, hb, hs,
    advanceReferenceSignalsInvariants refStateEx hne hb hs 2⟩

/-- C2: the first constraint row of the step-adaptation QP has
coefficients `(1, currentZMP + currentOffset - currentDCM -
currentOffset/2, 1)` over `(z, sigma, delta)` and identical lower and
upper bound `currentOffset/2 + currentZMP`, so it is a pinned equality:
every decision vector admitted by the constraints satisfies
`z + (currentZMP + currentOffset - currentDCM - currentOffset/2) * sigma
+ delta = currentOffset/2 + currentZMP`. -/
theorem equalityRowPinned (nominalValuesVector : Fin 5 → Real)
    (currentValuesVector : Fin 3 → Real) (tolerenceOfBounds : Fin 4 → Real)
    (x : Fin 3 → Real) :
    (evaluateConstraintsMatrix currentValuesVector 0 0 = 1
      ∧ evaluateConstraintsMatrix currentValuesVector 0 1
          = (currentValuesVector 0 + currentValuesVector 2)
            - currentValuesVector 1 - currentValuesVector 2 / 2
      ∧ evaluateConstraintsMatrix currentValuesVector 0 2 = 1
      ∧ lowerBoundOfConstraints nominalValuesVector currentValuesVector
          tolerenceOfBounds 0
        = currentValuesVector 2 / 2 + currentValuesVector 0
      ∧ upperBoundOfConstraints nominalValuesVector currentValuesVector
          tolerenceOfBounds 0
        = currentValuesVector 2 / 2 + currentValuesVector 0)
    ∧ (inFeasibleSet nominalValuesVector currentValuesVector
          tolerenceOfBounds x →
        x 0 + ((currentValuesVector 0 + currentValuesVector 2)
            - currentValuesVector 1 - currentValuesVector 2 / 2) * x 1 + x 2
          = currentValuesVector 2 / 2 + currentValuesVector 0) := by
  refine ⟨⟨rfl, rfl, rfl, rfl, rfl⟩, fun hfeas => ?_⟩
  obtain ⟨hlow, hup⟩ := hfeas 0
  have hrow : constraintRowValue currentValuesVector x 0
      = x 0 + ((currentValuesVector 0 + currentValuesVector 2)
          - currentValuesVector 1 - currentValuesVector 2 / 2) * x 1 + x 2 := by
    simp [constraintRowValue, evaluateConstraintsMatrix, Fin.sum_univ_three]
  rw [hrow] at hlow hup
  simp only [lowerBoundOfConstraints, upperBoundOfConstraints,
    Matrix.cons_val_zero] at hlow hup
  linarith

/-- Witness for `equalityRowPinned`: the example decision vector is
feasible for the example QP data and satisfies the pinned equality
there. -/
theorem equalityRowPinnedWitness :
    inFeasibleSet nominalValuesEx currentValuesEx tolerenceEx solutionEx
    ∧ solutionEx 0 + ((currentValuesEx 0 + currentValuesEx 2)
        - currentValuesEx 1 - currentValuesEx 2 / 2) * solutionEx 1
        + solutionEx 2
      = currentValuesEx 2 / 2 + currentValuesEx 0 :=
  ⟨solutionEx_feasible,
    (equalityRowPinned nominalValuesEx currentValuesEx tolerenceEx
        solutionEx).2 solutionEx_feasible⟩

/-- C1: evaluation of the step-adaptation QP at the failing input
`nominalNextPosition = 1, nominalSigma = 1, omega = 1,
zmpTolerance = 1/10, durationTolerance = 0`, measured ZMP/DCM/offset
zero.  The decision vector `(z, sigma, delta) = (0, 0, 0)` satisfies
every constraint row the code builds, yet `z = 0` violates the claimed
lower limit `nominalNextPosition - zmpTolerance = 9/10` and `sigma = 0`
violates the claimed lower limit
`exp((nominalStepDuration - durationTolerance) * omega) = 1`: rows 2 and
4 (coefficient `-1` with upper bounds `nominal - tolerance` and
`exp((duration - tolerance) * omega)`) do not enforce the stated lower
limits. -/
theorem boundsRowsDoNotEnforceLowerLimits :
    inFeasibleSet nominalValuesEx currentValuesEx tolerenceEx solutionEx
    ∧ ¬ (nominalValuesEx 0 - tolerenceEx 1 ≤ solutionEx 0)
    ∧ ¬ (Real.exp ((Real.log (nominalValuesEx 1) / nominalValuesEx 4
            - tolerenceEx 2) * nominalValuesEx 4)
          ≤ solutionEx 1) := by
  refine ⟨solutionEx_feasible, ?_, ?_⟩
  · norm_num [nominalValuesEx, tolerenceEx, solutionEx]
  · norm_num [nominalValuesEx, tolerenceEx, solutionEx, Real.log_one,
      Real.exp_zero]

/-- A `WalkingModule` state with a pending new-trajectory request
(counter scheduled at 20 from an earlier call) and a merge-point queue
whose front exceeds 20. -/
def plannerStatePending : PlannerState :=
  { mergePoints := [25]
    leftInContactFront := true
    rightInContactFront := true
    newTrajectoryRequired := true
    newTrajectoryMergeCounter := 20
    desiredPosition := (0, 0) }

/-- C4 counterexample: a `setPlannerInput` call made while a request is
already pending (`m_newTrajectoryRequired = true`, counter 20) with
merge-point queue `[25]` overwrites the lookahead merge counter with the
front merge point 25 — the `front > 20` branch has no pending-request
check, so the counter does not stay unchanged for every queue state. -/
theorem setPlannerInputOverridesPendingRequest :
    plannerStatePending.newTrajectoryRequired = true
    ∧ plannerStatePending.newTrajectoryMergeCounter = 20
    ∧ (setPlannerInput plannerStatePending 1 1).2.newTrajectoryMergeCounter
        = 25 :=
  ⟨rfl, rfl, rfl⟩

/-- C4 amended: while a request is pending, `setPlannerInput` leaves the
lookahead merge counter unchanged whenever the merge-point queue is
empty or its front is at most 20; when the front exceeds 20 the counter
is overwritten with that front value. -/
theorem setPlannerInputPendingCounter (s : PlannerState) (x y : Real)
    (h : s.newTrajectoryRequired = true) :
    (setPlannerInput s x y).2.newTrajectoryMergeCounter
      = if 20 < s.mergePoints.headD 0 then s.mergePoints.headD 0
        else s.newTrajectoryMergeCounter := by
  rcases s with ⟨mps, lc, rc, req, cnt, dp⟩
  simp only at h
  subst h
  cases mps with
  | nil => cases lc <;> cases rc <;> simp [setPlannerInput]
  | cons front rest =>
    cases rest with
    | nil =>
      by_cases hf : 20 < front <;> simp [setPlannerInput, hf]
    | cons second rest2 =>
      by_cases hf : 20 < front <;> simp [setPlannerInput, hf]

/-- Witness for `setPlannerInputPendingCounter` on the pending state with
merge-point queue `[25]`. -/
theorem setPlannerInputPendingCounterWitness :
    plannerStatePending.newTrajectoryRequired = true
    ∧ (setPlannerInput plannerStatePending 1 1).2.newTrajectoryMergeCounter
        = if 20 < plannerStatePending.mergePoints.headD 0
          then plannerStatePending.mergePoints.headD 0
          else plannerStatePending.newTrajectoryMergeCounter :=
  ⟨rfl, setPlannerInputPendingCounter plannerStatePending 1 1 rfl⟩

/-- A tick environment in which every collaborator call succeeds except
`getFeedbacks`. -/
def tickEnvFeedbackFailure : TickEnv :=
  { checkMotionDoneOk := true
    motionDone := true
    switchControlModeOk := true
    plannerAndMergeOk := true
    pidOk := true
    feedbackOk := false
    fkOk := true
    comOk := true
    dcmOk := true
    zmpOk := true
    lipmOk := true
    plannerQueriesOk := true
    stepAdaptationOk := true
    dcmControllerOk := true
    zmpControllerOk := true
    ikOk := true
    setReferencesOk := true }

/-- C5 counterexample: a feedback-acquisition failure during a Walking
tick aborts the tick before any joint position reference is sent (that
half of the claim holds), but `m_robotState` is left at `Walking` — the
Walking branch only returns `false`, it never writes
`WalkingFSM::Stopped`, so the claimed transition to `Stopped` does not
happen. -/
theorem feedbackFailureLeavesWalkingState :
    updateModule .Walking tickEnvFeedbackFailure
      = { ok := false, fsm := .Walking, commandIssued := false }
    ∧ WalkingFSM.Walking ≠ WalkingFSM.Stopped :=
  ⟨rfl, by decide⟩

/-- C5 amended: if feedback acquisition fails during a Walking tick,
`updateModule` returns `false` (terminating the module) before any joint
position reference is sent, and `m_robotState` stays `Walking`; no
transition to `Stopped` and no reset is performed (those happen only for
failures in the Preparing branch). -/
theorem feedbackFailureAbortsTickBeforeCommand (env : TickEnv)
    (h : env.feedbackOk = false) :
    (updateModule .Walking env).ok = false
    ∧ (updateModule .Walking env).commandIssued = false
    ∧ (updateModule .Walking env).fsm = .Walking := by
  rcases env with ⟨m1, m2, m3, pm, pid, fb, rest⟩
  simp only at h
  subst h
  cases pm <;> cases pid <;> simp [updateModule]

/-- Witness for `feedbackFailureAbortsTickBeforeCommand` on the
environment whose only failing call is `getFeedbacks`. -/
theorem feedbackFailureAbortsTickBeforeCommandWitness :
    tickEnvFeedbackFailure.feedbackOk = false
    ∧ ((updateModule .Walking tickEnvFeedbackFailure).ok = false
        ∧ (updateModule .Walking tickEnvFeedbackFailure).commandIssued = false
        ∧ (updateModule .Walking tickEnvFeedbackFailure).fsm = .Walking) :=
  ⟨rfl, feedbackFailureAbortsTickBeforeCommand tickEnvFeedbackFailure rfl⟩

/-- C8: on every tick in the Walking state the left-swing (mirrored)
step-adaptation branch is never executed: its guard
`false && jLeftstepList.size() > 1` is false for every number of planned
left footsteps, so the Step Adaptator can only be reached through the
right-swing trigger. -/
theorem leftSwingAdaptationNeverTriggered :
    ∀ nLeftSteps : Nat, leftSwingAdaptationTriggered nLeftSteps = false := by
  intro nLeftSteps
  simp [leftSwingAdaptationTriggered]

/-- C9: evaluation of `saturateFz` at the failing input
`thresholdFz = 0`: the code accepts the zero threshold and returns
`true` (leaving `Fz = 5` untouched), although the claim — and the
error message of the function itself, which demands a threshold above
zero — says a zero threshold is rejected with `false`. -/
theorem saturateFzAcceptsZeroThreshold :
    saturateFz 5 0 = (true, 5) := by
  norm_num [saturateFz]

/-- C7: constructing `sigmaNominal = exp(omega * (nextImpactTime +
nextDoubleSupportDuration/2 - currentTime))` via `setTimings` and
decoding it through the `currentTime + log(sigma)/omega -
nextDoubleSupportDuration/2` formula of `getDesiredImpactTime` recovers
`nextImpactTime` exactly over the reals, for every `omega > 0`; and in
general decoding `log(exp(omega * T))/omega` recovers `T`. -/
theorem sigmaTimeRoundTrip (omega currentTime nextImpactTime
    nextDoubleSupportDuration : Real) (h : 0 < omega) :
    getDesiredImpactTime
        (setTimings omega currentTime nextImpactTime nextDoubleSupportDuration)
        (setTimings omega currentTime nextImpactTime
          nextDoubleSupportDuration).sigmaNominal
      = nextImpactTime
    ∧ ∀ T : Real, Real.log (Real.exp (omega * T)) / omega = T := by
  have hne : omega ≠ 0 := ne_of_gt h
  constructor
  · rw [getDesiredImpactTime]
    simp only [setTimings, Real.log_exp]
    rw [mul_div_cancel_left₀ _ hne]
    ring
  · intro T
    rw [Real.log_exp, mul_div_cancel_left₀ _ hne]

/-- Witness for `sigmaTimeRoundTrip` at `omega = 1`, `currentTime = 0`,
`nextImpactTime = 2`, `nextDoubleSupportDuration = 0`. -/
theorem sigmaTimeRoundTripWitness :
    (0 : Real) < 1
    ∧ (getDesiredImpactTime (setTimings 1 0 2 0)
          (setTimings 1 0 2 0).sigmaNominal = 2
        ∧ ∀ T : Real, Real.log (Real.exp (1 * T)) / 1 = T) :=
  ⟨by norm_num, sigmaTimeRoundTrip 1 0 2 0 (by norm_num)⟩

/-- C6 counterexample: with the underlying solver already initialized, a
second `setHessianMatrix` call returns `true`, not the failure the claim
asserts (the `return false` of that branch is commented out in the
source). -/
theorem setHessianSecondCallReturnsTrue :
    qpStateInitialized.initialized = true
    ∧ (setHessianMatrix qpStateInitialized ![2, 2, 2, 2]).1 = true :=
  ⟨rfl, rfl⟩

/-- C6 amended: calling `setHessianMatrix` after the solver has been
initialized returns `true` (it only warns) and leaves the solver-side
stored Hessian and the initialized flag unchanged for every gain vector;
only the member copy `m_hessian` is overwritten. -/
theorem setHessianAfterInitKeepsSolverHessian (s : QPSolverState)
    (alphaVector : Fin 4 → Real) (h : s.initialized = true) :
    (setHessianMatrix s alphaVector).1 = true
    ∧ (setHessianMatrix s alphaVector).2.solverHessian = s.solverHessian
    ∧ (setHessianMatrix s alphaVector).2.initialized = s.initialized
    ∧ (setHessianMatrix s alphaVector).2.mHessian
        = some (hessianMatrix alphaVector) := by
  simp [setHessianMatrix, h]

/-- Witness for `setHessianAfterInitKeepsSolverHessian` on an
initialized solver state and the gain vector `(2, 2, 2, 2)`. -/
theorem setHessianAfterInitKeepsSolverHessianWitness :
    qpStateInitialized.initialized = true
    ∧ ((setHessianMatrix qpStateInitialized ![2, 2, 2, 2]).1 = true
        ∧ (setHessianMatrix qpStateInitialized ![2, 2, 2, 2]).2.solverHessian
            = qpStateInitialized.solverHessian
        ∧ (setHessianMatrix qpStateInitialized ![2, 2, 2, 2]).2.initialized
            = qpStateInitialized.initialized
        ∧ (setHessianMatrix qpStateInitialized ![2, 2, 2, 2]).2.mHessian
            = some (hessianMatrix ![2, 2, 2, 2])) :=
  ⟨rfl, setHessianAfterInitKeepsSolverHessian qpStateInitialized ![2, 2, 2, 2] rfl⟩

/-- C10: the Hessian built by `setHessianMatrix` is symmetric for every
gain vector, and positive definite whenever all four gains are strictly
positive, so the step-adaptation QP cost is strictly convex. -/
theorem hessianSymmetricPositiveDefinite (alphaVector : Fin 4 → Real)
    (h : ∀ i, 0 < alphaVector i) :
    (∀ i j, hessianMatrix alphaVector i j = hessianMatrix alphaVector j i)
    ∧ ∀ x : Fin 3 → Real, x ≠ 0 →
        0 < quadForm (hessianMatrix alphaVector) x := by
  constructor
  · intro i j
    fin_cases i <;> fin_cases j <;> simp [hessianMatrix]
  · intro x hx
    have hq : quadForm (hessianMatrix alphaVector) x
        = alphaVector 0 * (x 0 + x 2) ^ 2 + alphaVector 3 * x 0 ^ 2
          + alphaVector 2 * x 1 ^ 2 + alphaVector 1 * x 2 ^ 2 := by
      simp [quadForm, hessianMatrix, Fin.sum_univ_three]
      ring
    have h0 : 0 ≤ alphaVector 0 * (x 0 + x 2) ^ 2 :=
      mul_nonneg (h 0).le (sq_nonneg _)
    have h1 : 0 ≤ alphaVector 1 * x 2 ^ 2 := mul_nonneg (h 1).le (sq_nonneg _)
    have h2 : 0 ≤ alphaVector 2 * x 1 ^ 2 := mul_nonneg (h 2).le (sq_nonneg _)
    have h3 : 0 ≤ alphaVector 3 * x 0 ^ 2 := mul_nonneg (h 3).le (sq_nonneg _)
    obtain ⟨i, hi⟩ := Function.ne_iff.mp hx
    rw [hq]
    fin_cases i
    · have : 0 < alphaVector 3 * x 0 ^ 2 :=
        mul_pos (h 3) ((sq_nonneg _).lt_of_ne (Ne.symm (pow_ne_zero _ hi)))
      linarith
    · have : 0 < alphaVector 2 * x 1 ^ 2 :=
        mul_pos (h 2) ((sq_nonneg _).lt_of_ne (Ne.symm (pow_ne_zero _ hi)))
      linarith
    · have : 0 < alphaVector 1 * x 2 ^ 2 :=
        mul_pos (h 1) ((sq_nonneg _).lt_of_ne (Ne.symm (pow_ne_zero _ hi)))
      linarith

/-- Witness for `hessianSymmetricPositiveDefinite` at the all-ones gain
vector. -/
theorem hessianSymmetricPositiveDefiniteWitness :
    (∀ i : Fin 4, 0 < (![1, 1, 1, 1] : Fin 4 → Real) i)
    ∧ ((∀ i j, hessianMatrix ![1, 1, 1, 1] i j
          = hessianMatrix ![1, 1, 1, 1] j i)
        ∧ ∀ x : Fin 3 → Real, x ≠ 0 →
            0 < quadForm (hessianMatrix ![1, 1, 1, 1]) x) :=
  ⟨fun i => by fin_cases i <;> norm_num,
    hessianSymmetricPositiveDefinite ![1, 1, 1, 1]
      (fun i => by fin_cases i <;> norm_num)⟩
